import Mathlib

/-!
Shallow embedding of the graceful-shutdown coordinator of
`pkg/graceful/shutdown.go` (package `graceful`), together with proofs of
the specified properties.

Modelling conventions:
* Go `time.Duration` is an `Int` counting nanoseconds.
* Wall-clock instants measured from the moment `Shutdown` launches its
  tasks are `ℕ∞` (`ENat`) nanoseconds; `⊤` stands for "never happens".
* A `ShutdownFunc` (Go: `func(ctx context.Context) error`) is embedded as a
  function from the deadline context to an `OpOutcome`: the instant at which
  the call returns, the `error` value it returns (`Option Err`), and the log
  events it emits through the shared logger while running.
* The logger collaborator is modelled as a pure sink: instead of holding a
  `log.Logger`, every embedded operation returns the list of events it
  writes, and `Shutdown` returns its own events in a `ShutdownReport`.
-/

namespace Graceful

/-- Errors returned by shutdown callbacks (`error` values in Go); only their
identity matters, so they are strings. -/
abbrev Err := String

/-- Structured log fields, covering the constructors the package uses:
`log.String(key, value)` and `log.Err(err)`. -/
inductive LogField where
  | str (key value : String)
  | err (e : Err)
deriving DecidableEq

/-- One structured log event, tagged with the level methods the coordinator
calls on its `log.Logger`: `Info`, `Warn`, `Error`. -/
inductive LogEvent where
  | info (msg : String) (fields : List LogField)
  | warn (msg : String) (fields : List LogField)
  | error (msg : String) (fields : List LogField)
deriving DecidableEq

/-- The deadline context handed to every launched callback
(`context.WithTimeout(context.Background(), m.timeout)`): its `Done` channel
fires at instant `deadline`. -/
structure Ctx where
  deadline : ℕ∞
deriving DecidableEq

/-- Result of running one shutdown callback with a given context: the instant
at which the call returns (`⊤` if it never returns), the `error` it returns,
and the events it logs while running. -/
structure OpOutcome where
  time : ℕ∞
  err : Option Err
  logs : List LogEvent
deriving DecidableEq

/-- Embeds Go's `type ShutdownFunc func(ctx context.Context) error`. -/
abbrev ShutdownFunc := Ctx → OpOutcome

/-- Embeds `type Manager struct`: the configured timeout (nanoseconds) and the
registered callbacks in registration order.  The `sync.Mutex` serialises
access in Go; in this sequential embedding each operation acts atomically on
the state, so the lock has no separate representation.  The stored
`log.Logger` is modelled by returning log events (see module docstring). -/
structure Manager where
  timeout : Int
  callbacks : List ShutdownFunc

/-- One second in nanoseconds, the unit of Go's `time.Second`. -/
def second : Int := 1000000000

/-- Embeds `NewManager` (shutdown.go lines 26-34): a non-positive timeout is
replaced by the 30-second default, and the callback list starts empty. -/
def NewManager (timeout : Int) : Manager :=
  { timeout := if timeout ≤ 0 then 30 * second else timeout
    callbacks := [] }

/-- Embeds `(*Manager).Register` (lines 37-41): append the callback under the
lock. -/
def Manager.Register (m : Manager) (fn : ShutdownFunc) : Manager :=
  { m with callbacks := m.callbacks ++ [fn] }

/-- The closure built by `(*Manager).RegisterWithName` (lines 45-48): log
`Info("shutting down component", log.String("component", name))` through
`m.logger`, then delegate to `fn`.  The `m` parameter records that the Go
closure captures the manager (for its logger). -/
def Manager.namedWrapper (_m : Manager) (name : String) (fn : ShutdownFunc) :
    ShutdownFunc := fun c =>
  let o := fn c
  { time := o.time
    err := o.err
    logs := LogEvent.info "shutting down component"
        [LogField.str "component" name] :: o.logs }

/-- Embeds `(*Manager).RegisterWithName` (lines 44-49): register the named
wrapper closure. -/
def Manager.RegisterWithName (m : Manager) (name : String) (fn : ShutdownFunc) :
    Manager :=
  m.Register (m.namedWrapper name fn)

/-- The deadline context derived at the top of `Shutdown` (line 64):
`context.WithTimeout` with duration `timeoutNs` expires at instant
`timeoutNs` (a non-positive duration is already expired, instant 0). -/
def ctxOf (timeoutNs : Int) : Ctx :=
  { deadline := (timeoutNs.toNat : ℕ∞) }

/-- The context a shutdown session of manager `m` runs under. -/
def Manager.sessionCtx (m : Manager) : Ctx :=
  ctxOf m.timeout

/-- The order in which `Shutdown` spawns goroutines (lines 76-84): the loop
`for i := len(callbacks) - 1; i >= 0; i--` walks the snapshot backwards, so
the launch sequence is the reverse of registration order. -/
def launchSequence (callbacks : List ShutdownFunc) : List ShutdownFunc :=
  callbacks.reverse

/-- The outcomes of the launched tasks, listed in launch order; every entry of
the snapshot is applied to the shared deadline context. -/
def sessionOutcomesOf (c : Ctx) (snapshot : List ShutdownFunc) :
    List OpOutcome :=
  (launchSequence snapshot).map fun fn => fn c

/-- The instant at which `wg.Wait()` returns and `done` is closed (lines
88-92): the last task to finish determines it, and with no tasks it is 0. -/
def jointDone (outs : List OpOutcome) : ℕ∞ :=
  outs.foldr (fun o t => max o.time t) 0

/-- The errors drained from `errChan` (lines 100-103): each task sends its
non-nil error when it finishes, so after `close(errChan)` the drain loop sees
exactly the errors of tasks that finished by the time the joint wait ended, in
launch order. -/
def collectedErrors (c : Ctx) (outs : List OpOutcome) : List Err :=
  (outs.filter fun o => decide (o.time ≤ c.deadline)).filterMap OpOutcome.err

/-- Whether some goroutine sends on `errChan` after `close(errChan)` (line
100): a task that finishes strictly after the deadline (but does finish) with
a non-nil error executes `errChan <- err` on a closed channel, a Go runtime
fault that crashes the process. -/
def lateSendOnClosed (c : Ctx) (outs : List OpOutcome) : Bool :=
  outs.any fun o =>
    decide (c.deadline < o.time) && decide (o.time < ⊤) && o.err.isSome

/-- Everything a shutdown session produces: whether the select at lines 94-99
took the timeout branch, the instant the joint wait ended, whether an
abandoned task later faults by sending on the closed error channel, the
events logged by the launched operations, and the events the coordinator
itself logs after the wait (completion/timeout status, then one error event
per collected error). -/
structure ShutdownReport where
  timedOut : Bool
  waitTime : ℕ∞
  sendOnClosed : Bool
  opLogs : List LogEvent
  coordLogs : List LogEvent
deriving DecidableEq

/-- Embeds the body of `(*Manager).Shutdown` after the snapshot (lines 64,
76-104), as a function of the configured timeout and the snapshot:
launch every snapshot entry in reverse order with the deadline context,
race `done` against `ctx.Done()`, log completion or a timeout warning,
then drain the buffered error channel and log one error event per error. -/
def runSession (timeoutNs : Int) (snapshot : List ShutdownFunc) :
    ShutdownReport :=
  { timedOut :=
      decide ((ctxOf timeoutNs).deadline <
        jointDone (sessionOutcomesOf (ctxOf timeoutNs) snapshot))
    waitTime :=
      min (jointDone (sessionOutcomesOf (ctxOf timeoutNs) snapshot))
        (ctxOf timeoutNs).deadline
    sendOnClosed :=
      lateSendOnClosed (ctxOf timeoutNs)
        (sessionOutcomesOf (ctxOf timeoutNs) snapshot)
    opLogs :=
      ((sessionOutcomesOf (ctxOf timeoutNs) snapshot).map OpOutcome.logs).flatten
    coordLogs :=
      (if (ctxOf timeoutNs).deadline <
          jointDone (sessionOutcomesOf (ctxOf timeoutNs) snapshot)
        then LogEvent.warn "graceful shutdown timeout, forcing exit" []
        else LogEvent.info "graceful shutdown completed" []) ::
      (collectedErrors (ctxOf timeoutNs)
          (sessionOutcomesOf (ctxOf timeoutNs) snapshot)).map
        fun e => LogEvent.error "shutdown error" [LogField.err e] }

/-- Embeds `(*Manager).Shutdown` (lines 63-105): copy the callback slice under
the lock (the snapshot is `m.callbacks` at entry) and run the session.  The
method writes no field of `m`, so the manager component of the result is `m`
unchanged. -/
def Manager.Shutdown (m : Manager) : Manager × ShutdownReport :=
  (m, runSession m.timeout m.callbacks)

/-- The full event stream a session writes to the shared logger: operation
events followed by the coordinator's own status and error events. -/
def ShutdownReport.logs (r : ShutdownReport) : List LogEvent :=
  r.opLogs ++ r.coordLogs

/-- Embeds `(*Manager).Wait` (lines 52-60): block until signal `sig` arrives
(the arrived signal is a parameter), log it, then run `Shutdown`. -/
def Manager.Wait (m : Manager) (sig : String) : Manager × List LogEvent :=
  ((m.Shutdown).1,
    LogEvent.info "received shutdown signal" [LogField.str "signal" sig] ::
      (m.Shutdown).2.logs)

/-- Embeds `type ShutdownHook struct` (lines 108-111): the `sync.Once` is a
consumed-flag, and the manager pointer is `Option Manager` (`none` = nil). -/
structure ShutdownHook where
  onceDone : Bool
  manager : Option Manager

/-- The zero value of `defaultHook` (line 113) before any setup call. -/
def initialHook : ShutdownHook :=
  { onceDone := false, manager := none }

/-- Embeds `SetupGracefulShutdown` (lines 116-121): `once.Do` constructs the
manager only on the first call; every call returns the stored manager. -/
def SetupGracefulShutdown (hook : ShutdownHook) (timeoutNs : Int) :
    ShutdownHook × Option Manager :=
  if hook.onceDone then (hook, hook.manager)
  else
    let m := NewManager timeoutNs
    ({ onceDone := true, manager := some m }, some m)

/-- Embeds the package-level `Register` (lines 124-128): delegate only when
the shared manager is non-nil, otherwise do nothing. -/
def Register (hook : ShutdownHook) (fn : ShutdownFunc) : ShutdownHook :=
  match hook.manager with
  | some m => { hook with manager := some (m.Register fn) }
  | none => hook

/-- Embeds the package-level `RegisterWithName` (lines 131-135): delegate only
when the shared manager is non-nil, otherwise do nothing. -/
def RegisterWithName (hook : ShutdownHook) (name : String) (fn : ShutdownFunc) :
    ShutdownHook :=
  match hook.manager with
  | some m => { hook with manager := some (m.RegisterWithName name fn) }
  | none => hook

/-- Embeds the package-level `Wait` (lines 138-142): delegate only when the
shared manager is non-nil; uninitialized, it returns at once having logged
nothing. -/
def Wait (hook : ShutdownHook) (sig : String) : ShutdownHook × List LogEvent :=
  match hook.manager with
  | some m =>
      let p := m.Wait sig
      ({ hook with manager := some p.1 }, p.2)
  | none => (hook, [])

/-! ### Helper lemmas about the session primitives -/

theorem jointDone_nil : jointDone [] = 0 := rfl

theorem jointDone_cons (o : OpOutcome) (l : List OpOutcome) :
    jointDone (o :: l) = max o.time (jointDone l) := rfl

theorem jointDone_singleton (o : OpOutcome) : jointDone [o] = o.time := by
  rw [jointDone_cons, jointDone_nil]
  exact max_eq_left (zero_le _)

theorem jointDone_le {l : List OpOutcome} {d : ℕ∞}
    (h : ∀ o ∈ l, o.time ≤ d) : jointDone l ≤ d := by
  induction l with
  | nil => exact zero_le d
  | cons a l ih =>
      rw [jointDone_cons]
      exact max_le (h a (List.mem_cons_self a l))
        (ih fun o ho => h o (List.mem_cons_of_mem a ho))

theorem lt_jointDone_of_mem {l : List OpOutcome} {o : OpOutcome} (h : o ∈ l)
    {d : ℕ∞} (hd : d < o.time) : d < jointDone l := by
  induction l with
  | nil => cases h
  | cons a l ih =>
      rw [jointDone_cons]
      rcases List.mem_cons.mp h with rfl | h2
      · exact lt_of_lt_of_le hd (le_max_left _ _)
      · exact lt_of_lt_of_le (ih h2) (le_max_right _ _)

theorem jointDone_append (l1 l2 : List OpOutcome) :
    jointDone (l1 ++ l2) = max (jointDone l1) (jointDone l2) := by
  induction l1 with
  | nil => rw [List.nil_append, jointDone_nil, max_eq_right (zero_le _)]
  | cons a l ih =>
      rw [List.cons_append, jointDone_cons, ih, jointDone_cons, max_assoc]

theorem jointDone_reverse (l : List OpOutcome) :
    jointDone l.reverse = jointDone l := by
  induction l with
  | nil => rfl
  | cons a l ih =>
      rw [List.reverse_cons, jointDone_append, ih, jointDone_singleton,
        jointDone_cons, max_comm]

theorem mem_sessionOutcomesOf {c : Ctx} {snapshot : List ShutdownFunc}
    {o : OpOutcome} (h : o ∈ sessionOutcomesOf c snapshot) :
    ∃ fn ∈ snapshot, fn c = o := by
  unfold sessionOutcomesOf launchSequence at h
  obtain ⟨fn, hfn, rfl⟩ := List.mem_map.mp h
  exact ⟨fn, List.mem_reverse.mp hfn, rfl⟩

theorem collectedErrors_eq_nil {c : Ctx} {outs : List OpOutcome}
    (h : ∀ o ∈ outs, o.err = none) : collectedErrors c outs = [] := by
  unfold collectedErrors
  exact List.filterMap_eq_nil_iff.mpr fun o ho => h o (List.mem_of_mem_filter ho)

/-! ### Concrete fixtures used by witnesses -/

/-- A callback that finishes after 5ns with no error and logs nothing. -/
def okOp : ShutdownFunc := fun _ => { time := 5, err := none, logs := [] }

/-- A callback that finishes after 7ns returning the error
"disconnect failed". -/
def failOp : ShutdownFunc :=
  fun _ => { time := 7, err := some "disconnect failed", logs := [] }

/-- A manager with a 1-second deadline and the callbacks `okOp` then `failOp`
registered in that order. -/
def twoOpManager : Manager := ((NewManager second).Register okOp).Register failOp

/-- A callback with no observable behaviour, used as a registration marker. -/
def demoOp : ShutdownFunc := fun _ => { time := 0, err := none, logs := [] }

/-! ### Claim theorems -/

/-- C8: for every supplied deadline duration that is zero or negative, the
coordinator's effective shutdown deadline is the documented default of 30
seconds; for every positive supplied duration, the effective deadline is that
duration.  (`NewManager`, shutdown.go lines 26-34.) -/
theorem newManager_deadline_normalization (t : Int) :
    (t ≤ 0 → (NewManager t).timeout = 30 * second) ∧
    (0 < t → (NewManager t).timeout = t) ∧
    (NewManager t).callbacks = [] := by
  refine ⟨?_, ?_, rfl⟩
  · intro h
    show (if t ≤ 0 then 30 * second else t) = 30 * second
    rw [if_pos h]
  · intro h
    show (if t ≤ 0 then 30 * second else t) = t
    rw [if_neg (not_le.mpr h)]

/-- Witness for C8 at the concrete durations 0 (normalized to the default) and
7 nanoseconds (kept as supplied). -/
theorem newManager_deadline_normalization_witness :
    (NewManager 0).timeout = 30 * second ∧ (NewManager 7).timeout = 7 :=
  ⟨(newManager_deadline_normalization 0).1 (by decide),
   (newManager_deadline_normalization 7).2.1 (by decide)⟩

/-- C9: `RegisterWithName name op` registers a wrapper operation that, when
invoked with a context, first logs the informational event
"shutting down component" with field component=name and then returns exactly
the error (and completion time) that `op` produces for that context; it adds
no other state (the manager keeps its timeout, and gains only the wrapper). -/
theorem registerWithName_wrapper_behavior (m : Manager) (name : String)
    (fn : ShutdownFunc) (c : Ctx) :
    (m.RegisterWithName name fn).callbacks =
      m.callbacks ++ [m.namedWrapper name fn] ∧
    (m.RegisterWithName name fn).timeout = m.timeout ∧
    (m.namedWrapper name fn c).logs =
      LogEvent.info "shutting down component" [LogField.str "component" name] ::
        (fn c).logs ∧
    (m.namedWrapper name fn c).err = (fn c).err ∧
    (m.namedWrapper name fn c).time = (fn c).time :=
  ⟨rfl, rfl, rfl, rfl, rfl⟩

/-- C10: `Shutdown` never modifies the registry: it only copies the callback
slice under the lock, so the manager it leaves behind is unchanged, the
registered callback sequence is exactly the snapshot, and a second `Shutdown`
sees the same operations and produces the same report. -/
theorem shutdown_preserves_registry (m : Manager) :
    (m.Shutdown).1 = m ∧
    (m.Shutdown).1.callbacks = m.callbacks ∧
    ((m.Shutdown).1).Shutdown = m.Shutdown :=
  ⟨rfl, rfl, rfl⟩

/-- C4: the launch order of `Shutdown` is the exact reverse of registration
order — the launch sequence is the reversed snapshot, so the most recently
registered operation is started first and the first-registered operation is
started last — and this governs launch order only: the outcomes are those of
every registered callback, and the joint completion instant is invariant
under the reversal, i.e. independent of the launch order. -/
theorem shutdown_launch_order_reversed (m : Manager) :
    launchSequence m.callbacks = m.callbacks.reverse ∧
    (launchSequence m.callbacks).head? = m.callbacks.getLast? ∧
    (launchSequence m.callbacks).getLast? = m.callbacks.head? ∧
    (∀ c : Ctx, sessionOutcomesOf c m.callbacks =
      (m.callbacks.map fun fn => fn c).reverse) ∧
    (∀ c : Ctx, jointDone (sessionOutcomesOf c m.callbacks) =
      jointDone (m.callbacks.map fun fn => fn c)) := by
  refine ⟨rfl, List.head?_reverse _, List.getLast?_reverse _, ?_, ?_⟩
  · intro c
    exact List.map_reverse _ _
  · intro c
    have h : sessionOutcomesOf c m.callbacks =
        (m.callbacks.map fun fn => fn c).reverse := List.map_reverse _ _
    rw [h]
    exact jointDone_reverse _

/-- C5: the registry snapshot taken at the start of a shutdown session is
immutable for that session: a later registration appends after the snapshot,
every operation the session launches was in the snapshot, an operation absent
from the snapshot is never launched by the session, and the session report is
unaffected by the later registration. -/
theorem registry_snapshot_immutable (m : Manager) (g : ShutdownFunc) :
    (m.Register g).callbacks = m.callbacks ++ [g] ∧
    (∀ fn : ShutdownFunc, fn ∈ launchSequence m.callbacks → fn ∈ m.callbacks) ∧
    (g ∉ m.callbacks → g ∉ launchSequence m.callbacks) ∧
    runSession (m.Register g).timeout m.callbacks =
      runSession m.timeout m.callbacks := by
  refine ⟨rfl, ?_, ?_, rfl⟩
  · intro fn h
    exact List.mem_reverse.mp h
  · intro hg h
    exact hg (List.mem_reverse.mp h)

/-- Witness for C5: an operation that is not in the registry when the snapshot
is taken (here: the empty registry of a fresh manager) is not launched by that
session. -/
theorem registry_snapshot_immutable_witness :
    demoOp ∉ launchSequence (NewManager second).callbacks :=
  (registry_snapshot_immutable (NewManager second) demoOp).2.2.1
    (by simp [NewManager])

/-- C6 (amended): initializing the singleton coordinator is idempotent with
first-call-wins semantics — the second call returns the same instance and
leaves the hook unchanged — and the shared instance's deadline is determined
by the first call's argument alone: the first-supplied duration when positive,
otherwise the 30-second default. -/
theorem setup_idempotent_first_call_wins (t1 t2 : Int) :
    (SetupGracefulShutdown initialHook t1).2 = some (NewManager t1) ∧
    (SetupGracefulShutdown (SetupGracefulShutdown initialHook t1).1 t2).2 =
      (SetupGracefulShutdown initialHook t1).2 ∧
    (SetupGracefulShutdown (SetupGracefulShutdown initialHook t1).1 t2).1 =
      (SetupGracefulShutdown initialHook t1).1 ∧
    (NewManager t1).timeout = (if t1 ≤ 0 then 30 * second else t1) :=
  ⟨rfl, rfl, rfl, rfl⟩

/-- Counterexample to C6 as stated: with a first-call deadline of 0 (and a
second call with 1 second), both calls do return the single shared instance,
but that instance's deadline is the 30-second default, not the value 0
supplied on the first call. -/
theorem setup_first_deadline_counterexample :
    (SetupGracefulShutdown initialHook 0).2 = some (NewManager 0) ∧
    (SetupGracefulShutdown (SetupGracefulShutdown initialHook 0).1 second).2 =
      some (NewManager 0) ∧
    (NewManager 0).timeout = 30 * second ∧
    (NewManager 0).timeout ≠ 0 :=
  ⟨rfl, rfl, by decide, by decide⟩

/-- C7: calling a package-level convenience function (`Register`,
`RegisterWithName`, `Wait`) before the shared coordinator has been set up is a
silent no-op: it changes no state, performs no registration, and waits on
nothing (no events are logged). -/
theorem uninitialized_package_calls_noop (hook : ShutdownHook)
    (fn : ShutdownFunc) (name sig : String) (h : hook.manager = none) :
    Register hook fn = hook ∧
    RegisterWithName hook name fn = hook ∧
    Wait hook sig = (hook, []) := by
  obtain ⟨od, mg⟩ := hook
  cases mg with
  | some m => simp at h
  | none => exact ⟨rfl, rfl, rfl⟩

/-- Witness for C7 on the uninitialized default hook. -/
theorem uninitialized_package_calls_noop_witness :
    Register initialHook demoOp = initialHook ∧
    RegisterWithName initialHook "database" demoOp = initialHook ∧
    Wait initialHook "SIGTERM" = (initialHook, []) :=
  uninitialized_package_calls_noop initialHook demoOp "database" "SIGTERM" rfl

/-- C2: for every registry in which every operation completes before the
deadline and returns no error, `Shutdown` takes the completion branch, its own
log output is exactly one informational completion event and zero error
events, and the joint wait ends no later than the deadline. -/
theorem shutdown_all_success_report (m : Manager)
    (h : ∀ fn ∈ m.callbacks,
      (fn m.sessionCtx).time < m.sessionCtx.deadline ∧
        (fn m.sessionCtx).err = none) :
    (m.Shutdown).2.timedOut = false ∧
    (m.Shutdown).2.coordLogs = [LogEvent.info "graceful shutdown completed" []] ∧
    (m.Shutdown).2.waitTime ≤ m.sessionCtx.deadline := by
  have hout : ∀ o ∈ sessionOutcomesOf m.sessionCtx m.callbacks,
      o.time < m.sessionCtx.deadline ∧ o.err = none := by
    intro o ho
    obtain ⟨fn, hfn, rfl⟩ := mem_sessionOutcomesOf ho
    exact h fn hfn
  have hjd : jointDone (sessionOutcomesOf m.sessionCtx m.callbacks) ≤
      m.sessionCtx.deadline :=
    jointDone_le fun o ho => le_of_lt (hout o ho).1
  refine ⟨?_, ?_, ?_⟩
  · show decide (m.sessionCtx.deadline <
        jointDone (sessionOutcomesOf m.sessionCtx m.callbacks)) = false
    exact decide_eq_false (not_lt.mpr hjd)
  · show (if m.sessionCtx.deadline <
          jointDone (sessionOutcomesOf m.sessionCtx m.callbacks)
        then LogEvent.warn "graceful shutdown timeout, forcing exit" []
        else LogEvent.info "graceful shutdown completed" []) ::
      (collectedErrors m.sessionCtx
          (sessionOutcomesOf m.sessionCtx m.callbacks)).map
        (fun e => LogEvent.error "shutdown error" [LogField.err e]) =
      [LogEvent.info "graceful shutdown completed" []]
    rw [if_neg (not_lt.mpr hjd),
      collectedErrors_eq_nil fun o ho => (hout o ho).2]
    rfl
  · show min (jointDone (sessionOutcomesOf m.sessionCtx m.callbacks))
        m.sessionCtx.deadline ≤ m.sessionCtx.deadline
    exact min_le_right _ _

/-- Witness for C2: a manager with a 1-second deadline and one quick
successful callback completes and logs exactly the completion event. -/
theorem shutdown_all_success_report_witness :
    (((NewManager second).Register okOp).Shutdown).2.timedOut = false ∧
    (((NewManager second).Register okOp).Shutdown).2.coordLogs =
      [LogEvent.info "graceful shutdown completed" []] ∧
    (((NewManager second).Register okOp).Shutdown).2.waitTime ≤
      ((NewManager second).Register okOp).sessionCtx.deadline :=
  shutdown_all_success_report ((NewManager second).Register okOp) (by
    intro fn hfn
    simp only [Manager.Register, NewManager, List.nil_append,
      List.mem_singleton] at hfn
    subst hfn
    exact ⟨by decide, rfl⟩)

/-- C3: for a registry in which exactly one operation returns a non-nil error
and every operation completes before the deadline, `Shutdown` still reports
completion (not timeout), its own log output carries exactly one error event
with that operation's error, and every operation in the snapshot is still run
(the session's outcomes are those of the whole snapshot, so no failure aborts
a sibling). -/
theorem shutdown_single_failure_report (m : Manager)
    (l1 l2 : List ShutdownFunc) (f : ShutdownFunc) (e : Err)
    (hsplit : m.callbacks = l1 ++ f :: l2)
    (htime : ∀ fn ∈ m.callbacks,
      (fn m.sessionCtx).time < m.sessionCtx.deadline)
    (herr : (f m.sessionCtx).err = some e)
    (hok : ∀ fn ∈ l1 ++ l2, (fn m.sessionCtx).err = none) :
    (m.Shutdown).2.timedOut = false ∧
    (m.Shutdown).2.coordLogs =
      [LogEvent.info "graceful shutdown completed" [],
       LogEvent.error "shutdown error" [LogField.err e]] ∧
    sessionOutcomesOf m.sessionCtx m.callbacks =
      (m.callbacks.map fun fn => fn m.sessionCtx).reverse := by
  have hjd : jointDone (sessionOutcomesOf m.sessionCtx m.callbacks) ≤
      m.sessionCtx.deadline := by
    refine jointDone_le fun o ho => ?_
    obtain ⟨fn, hfn, rfl⟩ := mem_sessionOutcomesOf ho
    exact le_of_lt (htime fn hfn)
  have houts : sessionOutcomesOf m.sessionCtx m.callbacks =
      (l2.reverse.map fun fn => fn m.sessionCtx) ++
        f m.sessionCtx :: (l1.reverse.map fun fn => fn m.sessionCtx) := by
    rw [hsplit]
    simp [sessionOutcomesOf, launchSequence, List.reverse_append]
  have hfilter : (sessionOutcomesOf m.sessionCtx m.callbacks).filter
      (fun o => decide (o.time ≤ m.sessionCtx.deadline)) =
      sessionOutcomesOf m.sessionCtx m.callbacks := by
    refine List.filter_eq_self.mpr fun o ho => ?_
    obtain ⟨fn, hfn, rfl⟩ := mem_sessionOutcomesOf ho
    exact decide_eq_true (le_of_lt (htime fn hfn))
  have hnil1 : (l1.reverse.map fun fn => fn m.sessionCtx).filterMap
      OpOutcome.err = [] := by
    refine List.filterMap_eq_nil_iff.mpr fun o ho => ?_
    obtain ⟨fn, hfn, rfl⟩ := List.mem_map.mp ho
    exact hok fn (List.mem_append.mpr (Or.inl (List.mem_reverse.mp hfn)))
  have hnil2 : (l2.reverse.map fun fn => fn m.sessionCtx).filterMap
      OpOutcome.err = [] := by
    refine List.filterMap_eq_nil_iff.mpr fun o ho => ?_
    obtain ⟨fn, hfn, rfl⟩ := List.mem_map.mp ho
    exact hok fn (List.mem_append.mpr (Or.inr (List.mem_reverse.mp hfn)))
  have hcoll : collectedErrors m.sessionCtx
      (sessionOutcomesOf m.sessionCtx m.callbacks) = [e] := by
    unfold collectedErrors
    rw [hfilter, houts, List.filterMap_append, List.filterMap_cons, hnil2]
    simp only [herr, hnil1]
    rfl
  refine ⟨?_, ?_, ?_⟩
  · show decide (m.sessionCtx.deadline <
        jointDone (sessionOutcomesOf m.sessionCtx m.callbacks)) = false
    exact decide_eq_false (not_lt.mpr hjd)
  · show (if m.sessionCtx.deadline <
          jointDone (sessionOutcomesOf m.sessionCtx m.callbacks)
        then LogEvent.warn "graceful shutdown timeout, forcing exit" []
        else LogEvent.info "graceful shutdown completed" []) ::
      (collectedErrors m.sessionCtx
          (sessionOutcomesOf m.sessionCtx m.callbacks)).map
        (fun e => LogEvent.error "shutdown error" [LogField.err e]) =
      [LogEvent.info "graceful shutdown completed" [],
       LogEvent.error "shutdown error" [LogField.err e]]
    rw [if_neg (not_lt.mpr hjd), hcoll]
    rfl
  · exact List.map_reverse _ _

/-- Witness for C3: the two-callback manager in which `failOp` (registered
second) fails with "disconnect failed" and `okOp` succeeds. -/
theorem shutdown_single_failure_report_witness :
    (twoOpManager.Shutdown).2.timedOut = false ∧
    (twoOpManager.Shutdown).2.coordLogs =
      [LogEvent.info "graceful shutdown completed" [],
       LogEvent.error "shutdown error" [LogField.err "disconnect failed"]] ∧
    sessionOutcomesOf twoOpManager.sessionCtx twoOpManager.callbacks =
      (twoOpManager.callbacks.map fun fn => fn twoOpManager.sessionCtx).reverse :=
  shutdown_single_failure_report twoOpManager [okOp] [] failOp
    "disconnect failed"
    (by simp [twoOpManager, Manager.Register, NewManager])
    (by
      intro fn hfn
      simp only [twoOpManager, Manager.Register, NewManager,
        List.nil_append] at hfn
      rcases List.mem_cons.mp hfn with rfl | hfn2
      · decide
      · rcases List.mem_cons.mp hfn2 with rfl | hfn3
        · decide
        · cases hfn3)
    rfl
    (by
      intro fn hfn
      simp only [List.append_nil, List.mem_singleton] at hfn
      subst hfn
      rfl)

/-- A callback that ignores cancellation, finishes 100ns after the 200ms
deadline, and returns a non-nil error. -/
def lateFailingOp : ShutdownFunc :=
  fun _ => { time := 200000100, err := some "boom", logs := [] }

/-- A manager with a 200ms deadline whose only callback is `lateFailingOp`. -/
def lateFailureManager : Manager :=
  (NewManager 200000000).Register lateFailingOp

/-- C1: at a registry whose only operation outlives the 200ms deadline,
`Shutdown` stops waiting exactly at the configured deadline, logs the timeout
warning, and produces no error event for the still-running operation — but,
contrary to the claim's final part, the operation's later failure does have a
further effect: its goroutine sends the error on `errChan` after
`close(errChan)` (shutdown.go line 100), a send on a closed channel, which
panics and crashes the process. -/
theorem shutdown_late_failure_sends_on_closed_channel :
    (lateFailureManager.Shutdown).2.timedOut = true ∧
    (lateFailureManager.Shutdown).2.waitTime =
      lateFailureManager.sessionCtx.deadline ∧
    (lateFailureManager.Shutdown).2.coordLogs =
      [LogEvent.warn "graceful shutdown timeout, forcing exit" []] ∧
    (lateFailureManager.Shutdown).2.sendOnClosed = true := by
  refine ⟨?_, ?_, ?_, ?_⟩ <;> decide

end Graceful
